import Mathlib

/-!
Shallow embedding of the anomaly-detection and recommendation core of the
lotuslk repository: the `AnomalyDetector` class (src/models/anomalyDetector.js)
and the `RecommendationEngine` class (src/models/recommendationEngine.js).

JavaScript numbers are modelled as exact rationals (`ℚ`) on every code path
whose arithmetic is exact.  The Z-score detector computes `Math.sqrt` of the
variance and then divides by it, so that path is modelled over `ℝ` together
with an explicit `JSNum` type carrying the IEEE-754 special values `NaN` and
`±Infinity`, exactly as JavaScript division produces them; this matters
because for a constant series the code divides `0 / 0`.
-/

/-- Embeds `AnomalyDetector.calculateMean`: `0` for an empty array, otherwise
the sum divided by the length. -/
def calculateMean (values : List ℚ) : ℚ :=
  if values.length = 0 then 0 else values.sum / values.length

/-- The quantity under the square root in `AnomalyDetector.calculateStdDev`:
for a series of length at most 1 the function returns 0 before taking any
root, otherwise the population variance (mean of squared deviations). -/
def calculateVariance (values : List ℚ) : ℚ :=
  if values.length ≤ 1 then 0
  else
    let avg := calculateMean values
    ((values.map (fun v => (v - avg) ^ 2)).sum) / values.length

/-- Embeds `AnomalyDetector.calculateStdDev`: `Math.sqrt` of the population
variance (the early return 0 for short series coincides with `Real.sqrt 0`). -/
noncomputable def calculateStdDev (values : List ℚ) : ℝ :=
  Real.sqrt ((calculateVariance values : ℚ) : ℝ)

/-- A JavaScript IEEE-754 number: either an ordinary (here: exact real)
value, or one of the special values `NaN`, `+Infinity`, `-Infinity`. -/
inductive JSNum where
  | num (x : ℝ)
  | nan
  | posInf
  | negInf

open Classical in
/-- JavaScript division `a / b` of two ordinary numbers: division by zero
yields `NaN` when the numerator is zero and a signed infinity otherwise. -/
noncomputable def jdiv (a b : ℝ) : JSNum :=
  if b = 0 then
    (if a = 0 then JSNum.nan else if 0 < a then JSNum.posInf else JSNum.negInf)
  else JSNum.num (a / b)

/-- JavaScript `Math.abs` on a `JSNum` (`Math.abs(NaN)` is `NaN`). -/
noncomputable def jabs : JSNum → JSNum
  | JSNum.num x => JSNum.num |x|
  | JSNum.nan => JSNum.nan
  | JSNum.posInf => JSNum.posInf
  | JSNum.negInf => JSNum.posInf

/-- JavaScript division of a `JSNum` by a nonzero positive ordinary constant
(the only use in the code divides by `zScoreThreshold * 2 = 5`). -/
noncomputable def jdivPos (a : JSNum) (b : ℝ) : JSNum :=
  match a with
  | JSNum.num x => JSNum.num (x / b)
  | JSNum.nan => JSNum.nan
  | JSNum.posInf => JSNum.posInf
  | JSNum.negInf => JSNum.negInf

/-- JavaScript `Math.min(a, 1)`: `NaN` absorbs, `+Infinity` loses to 1. -/
noncomputable def jminOne (a : JSNum) : JSNum :=
  match a with
  | JSNum.num x => JSNum.num (min x 1)
  | JSNum.nan => JSNum.nan
  | JSNum.posInf => JSNum.num 1
  | JSNum.negInf => JSNum.negInf

open Classical in
/-- JavaScript comparison `a > b` for a `JSNum` against an ordinary bound:
any comparison with `NaN` is false. -/
noncomputable def jgt (a : JSNum) (b : ℝ) : Bool :=
  match a with
  | JSNum.num x => decide (b < x)
  | JSNum.nan => false
  | JSNum.posInf => true
  | JSNum.negInf => false

/-- Result record of `detectAnomaliesWithZScore`: the `anomalyScores` object
has one entry per input index, modelled positionally. -/
structure ZScoreResult where
  anomalyIndices : List ℕ
  anomalyScores : List JSNum
  threshold : ℚ

open Classical in
/-- Embeds `AnomalyDetector.detectAnomaliesWithZScore` (threshold is
`config.zScoreThreshold`, default 2.5): z-score `|x - mean| / stdDev` per
value, score `Math.min(z / (threshold * 2), 1)`, flagged when
`z > threshold`.  There is no special case for a zero standard deviation:
the division then happens in IEEE arithmetic and produces `NaN`. -/
noncomputable def detectAnomaliesWithZScore (threshold : ℚ) (values : List ℚ) : ZScoreResult :=
  let mean := calculateMean values
  let stdDev := calculateStdDev values
  let zScores := values.map (fun value => jabs (jdiv (((value : ℚ) : ℝ) - ((mean : ℚ) : ℝ)) stdDev))
  let anomalyScores := zScores.map (fun z => jminOne (jdivPos z (((threshold : ℚ) : ℝ) * 2)))
  let anomalyIndices := (List.range values.length).filter
    (fun i => jgt (zScores.getD i JSNum.nan) ((threshold : ℚ) : ℝ))
  ⟨anomalyIndices, anomalyScores, threshold⟩

/-- Output record of one detection method (`anomalyScores` is a JavaScript
object keyed by index, modelled as an association list). -/
structure MethodResult where
  anomalyIndices : List ℕ
  anomalyScores : List (ℕ × ℚ)
  threshold : ℚ
  deriving DecidableEq

/-- Lookup of `anomalyScores[index]` in the index-keyed object. -/
def scoreLookup (scores : List (ℕ × ℚ)) (i : ℕ) : Option ℚ :=
  (scores.find? (fun p => p.1 == i)).map (fun p => p.2)

/-- JavaScript `x || d` applied to a possibly-missing numeric property:
a missing value and the falsy number 0 both fall back to the default. -/
def orElseJS (x : Option ℚ) (d : ℚ) : ℚ :=
  match x with
  | none => d
  | some q => if q = 0 then d else q

/-- The sorted copy `[...values].sort((a, b) => a - b)` made by the IQR
detector. -/
def iqrSorted (values : List ℚ) : List ℚ :=
  values.insertionSort (fun a b => a ≤ b)

/-- The 25th-percentile value `sortedValues[Math.floor(length * 0.25)]`. -/
def iqrQ1 (values : List ℚ) : ℚ :=
  (iqrSorted values).getD (values.length / 4) 0

/-- The 75th-percentile value `sortedValues[Math.floor(length * 0.75)]`. -/
def iqrQ3 (values : List ℚ) : ℚ :=
  (iqrSorted values).getD (values.length * 3 / 4) 0

/-- The lower outlier bound `q1 - iqr * iqrMultiplier`. -/
def iqrLowerBound (k : ℚ) (values : List ℚ) : ℚ :=
  iqrQ1 values - (iqrQ3 values - iqrQ1 values) * k

/-- The upper outlier bound `q3 + iqr * iqrMultiplier`. -/
def iqrUpperBound (k : ℚ) (values : List ℚ) : ℚ :=
  iqrQ3 values + (iqrQ3 values - iqrQ1 values) * k

/-- The score the IQR detector assigns to one value.  Outside the bounds it
is `Math.min(distance, 1)` where `distance` divides by `lowerBound || 1`
(resp. `upperBound || 1`), so the falsy bound 0 is replaced by 1; inside the
bounds it is `distanceFromCenter / range * 0.5`.  When the two bounds
coincide the inside branch divides `0 / 0`, which is `NaN` in JavaScript;
rational division gives 0 there, so every theorem about inside scores
carries the hypothesis `lowerBound < upperBound`. -/
def iqrScoreOf (k : ℚ) (values : List ℚ) (value : ℚ) : ℚ :=
  let lowerBound := iqrLowerBound k values
  let upperBound := iqrUpperBound k values
  if value < lowerBound ∨ upperBound < value then
    let distance :=
      if value < lowerBound then
        (lowerBound - value) / (if lowerBound = 0 then 1 else lowerBound)
      else
        (value - upperBound) / (if upperBound = 0 then 1 else upperBound)
    min distance 1
  else
    let range := upperBound - lowerBound
    let distanceFromCenter := |value - (lowerBound + range / 2)|
    (distanceFromCenter / range) * (1 / 2)

/-- Embeds `AnomalyDetector.detectAnomaliesWithIQR` (multiplier is
`config.iqrMultiplier`, default 1.5): simple index-based quartiles of the
sorted series, bounds `q1 - k·iqr` and `q3 + k·iqr`, values outside the
bounds flagged, and a score for every index as in `iqrScoreOf`. -/
def detectAnomaliesWithIQR (k : ℚ) (values : List ℚ) : MethodResult :=
  let lowerBound := iqrLowerBound k values
  let upperBound := iqrUpperBound k values
  let anomalyScores := (List.range values.length).map
    (fun i => (i, iqrScoreOf k values (values.getD i 0)))
  let anomalyIndices := (List.range values.length).filter
    (fun i => decide (values.getD i 0 < lowerBound ∨ upperBound < values.getD i 0))
  ⟨anomalyIndices, anomalyScores, k⟩

/-- One step of collecting indices into the insertion-ordered `Set` of
`combineAnomalyDetections`: JavaScript `Set.add` keeps the first insertion. -/
def insertIndex (acc : List ℕ) (i : ℕ) : List ℕ :=
  if i ∈ acc then acc else acc ++ [i]

/-- The `allIndices` set of `combineAnomalyDetections`: every index flagged
by some method, in insertion order. -/
def allIndicesOf (methods : List (String × MethodResult)) : List ℕ :=
  methods.foldl (fun acc m => m.2.anomalyIndices.foldl insertIndex acc) []

/-- The `indexCounts` entry of `combineAnomalyDetections`: how many times an
index occurs across the methods' `anomalyIndices` arrays. -/
def indexCount (methods : List (String × MethodResult)) (i : ℕ) : ℕ :=
  (methods.map (fun m => m.2.anomalyIndices.count i)).sum

/-- The `indexScores` accumulator of `combineAnomalyDetections` before the
averaging step: each occurrence of the index adds `anomalyScores[index] || 0`. -/
def indexScoreSum (methods : List (String × MethodResult)) (i : ℕ) : ℚ :=
  (methods.map (fun m =>
    (m.2.anomalyIndices.count i : ℚ) * orElseJS (scoreLookup m.2.anomalyScores i) 0)).sum

/-- Embeds `AnomalyDetector.combineAnomalyDetections` (the `ensembleMethod`
comes from the configuration, default "majority"): `majority` keeps an index
detected by at least `Math.ceil(methodCount / 2)` occurrences, `weighted`
keeps an index whose average collected score is at least 0.6, and any other
value of the configuration keeps every flagged index. -/
def combineAnomalyDetections (ensembleMethod : String)
    (methods : List (String × MethodResult)) : List ℕ :=
  let allIndices := allIndicesOf methods
  let methodCount := methods.length
  if ensembleMethod = "majority" then
    let threshold := (methodCount + 1) / 2
    allIndices.filter (fun i => decide (threshold ≤ indexCount methods i))
  else if ensembleMethod = "weighted" then
    allIndices.filter (fun i =>
      decide ((6 / 10 : ℚ) ≤ indexScoreSum methods i / (indexCount methods i : ℚ)))
  else
    allIndices

/-- A fused detection record as built by `detectDividendAnomalies`. -/
structure Anomaly where
  date : String
  value : ℚ
  anomalyScore : ℚ
  severity : String
  type : String
  deviation : ℚ
  detectedBy : List String
  deriving DecidableEq

/-- JavaScript `parseFloat(x.toFixed(2))`: rounding to two decimal places. -/
def toFixed2 (q : ℚ) : ℚ :=
  ((round (q * 100) : ℤ) : ℚ) / 100

/-- The per-index average score computed in the anomaly-mapping loop of
`detectDividendAnomalies`: over the methods whose `anomalyIndices` contain
the index, average `anomalyScores[index] || 1`. -/
def anomalyScoreAt (methods : List (String × MethodResult)) (i : ℕ) : ℚ :=
  let flagging := methods.filter (fun m => decide (i ∈ m.2.anomalyIndices))
  let total := (flagging.map (fun m => orElseJS (scoreLookup m.2.anomalyScores i) 1)).sum
  if flagging.length = 0 then 0 else total / (flagging.length : ℚ)

/-- The anomaly record that `detectDividendAnomalies` builds for one combined
index: severity from the averaged score (`> 0.8` high, `> 0.5` medium, else
low), type `high_value` exactly when the value exceeds the series mean,
percent deviation from the mean rounded by `toFixed(2)`, and the list of
detecting method names. -/
def buildAnomaly (values : List ℚ) (dates : List String)
    (methods : List (String × MethodResult)) (i : ℕ) : Anomaly :=
  let anomalyScore := anomalyScoreAt methods i
  let severity :=
    if 8 / 10 < anomalyScore then "high"
    else if 5 / 10 < anomalyScore then "medium"
    else "low"
  let value := values.getD i 0
  let avg := calculateMean values
  let type := if avg < value then "high_value" else "low_value"
  let deviation := ((value - avg) / avg) * 100
  { date := dates.getD i ""
    value := value
    anomalyScore := anomalyScore
    severity := severity
    type := type
    deviation := toFixed2 deviation
    detectedBy := (methods.filter (fun m => decide (i ∈ m.2.anomalyIndices))).map (fun m => m.1) }

/-- The `stats` record of a detection result. -/
structure DetectionStats where
  count : ℕ
  percentage : ℚ
  deriving DecidableEq

/-- The per-method summary in the `methods` field of a detection result. -/
structure MethodSummary where
  anomalyCount : ℕ
  threshold : ℚ
  deriving DecidableEq

/-- The record returned by `detectDividendAnomalies`.  `errored` is true when
the result came out of the surrounding `catch` block (which attaches an
`error` message to the same degraded shape). -/
structure DetectionResult where
  anomalies : List Anomaly
  stats : DetectionStats
  methods : List (String × MethodSummary)
  errored : Bool
  deriving DecidableEq

/-- One dividend-distribution record (only the fields the embedded paths
read; `price` and `yield` feed the feature engineering consumed by the
TensorFlow-backed methods). -/
structure Observation where
  date : String
  value : ℚ
  price : Option ℚ
  dividendYield : Option ℚ
  deriving DecidableEq

/-- Embeds `AnomalyDetector.detectDividendAnomalies`.  The construction of
the per-method results (lines building the `methods` object: the Z-score and
IQR detectors on the raw values plus the asynchronous TensorFlow-backed
Isolation-Forest and autoencoder methods on the engineered features) is
passed in as `computeMethods`, since the machine-learning methods are
external collaborators of the embedded core; every claim below either
quantifies over it or never reaches it.  A missing (`null`) input makes the
cache-key construction call `.map` on `null`; the `TypeError` is caught by
the surrounding `try`/`catch`, which returns the degraded result with an
`error` message attached (`errored := true`).  Fewer than 5 records return
the degraded result directly.  The cache of a fresh detector is empty, so
the cache lookup preceding the length check never hits and is not modelled. -/
def detectDividendAnomalies (ensembleMethod : String)
    (computeMethods : List ℚ → List (String × MethodResult))
    (dividendData : Option (List Observation)) : DetectionResult :=
  match dividendData with
  | none => ⟨[], ⟨0, 0⟩, [], true⟩
  | some data =>
    if data.length < 5 then ⟨[], ⟨0, 0⟩, [], false⟩
    else
      let values := data.map Observation.value
      let dates := data.map Observation.date
      let methods := computeMethods values
      let anomalyIndices := combineAnomalyDetections ensembleMethod methods
      let anomalies := (anomalyIndices.map (buildAnomaly values dates methods)).insertionSort
        (fun a b => b.anomalyScore ≤ a.anomalyScore)
      { anomalies := anomalies
        stats := ⟨anomalies.length, toFixed2 ((anomalies.length : ℚ) / (data.length : ℚ) * 100)⟩
        methods := methods.map (fun m => (m.1, ⟨m.2.anomalyIndices.length, m.2.threshold⟩))
        errored := false }

/-- The weight record of `RecommendationEngine.config.weights`. -/
structure Weights where
  priceForecasting : ℚ
  sentiment : ℚ
  anomalies : ℚ
  fundamentals : ℚ
  deriving DecidableEq

/-- The default weights (price 0.4, sentiment 0.3, anomalies 0.2,
fundamentals 0.1). -/
def defaultWeights : Weights :=
  ⟨4 / 10, 3 / 10, 2 / 10, 1 / 10⟩

/-- The threshold record of `RecommendationEngine.config.thresholds`. -/
structure Thresholds where
  strongBuy : ℚ
  buy : ℚ
  sell : ℚ
  strongSell : ℚ
  deriving DecidableEq

/-- The default thresholds (strongBuy 0.7, buy 0.55, sell -0.55,
strongSell -0.7). -/
def defaultThresholds : Thresholds :=
  ⟨7 / 10, 55 / 100, -(55 / 100), -(7 / 10)⟩

/-- The effective user preferences consumed by
`adjustWeightsByPreferences` (sector preferences are never read there). -/
structure Preferences where
  riskTolerance : String
  investmentHorizon : String
  incomePreference : ℚ
  deriving DecidableEq

/-- Embeds `RecommendationEngine.adjustWeightsByPreferences`: multiplicative
adjustments for risk tolerance (`low`: anomalies ×1.5, fundamentals ×1.3,
price ×0.8; `high`: price ×1.3, sentiment ×1.2, anomalies ×0.7), investment
horizon (`short`: sentiment ×1.3, price ×1.2, fundamentals ×0.7; `long`:
fundamentals ×1.5, anomalies ×1.2, sentiment ×0.8) and income preference
(`> 0.7`: anomalies ×1.3; `< 0.3`: price ×1.3), followed by renormalization
of all four weights by their sum. -/
def adjustWeightsByPreferences (base : Weights) (preferences : Preferences) : Weights :=
  let w1 :=
    if preferences.riskTolerance = "low" then
      { base with
        anomalies := base.anomalies * (15 / 10)
        fundamentals := base.fundamentals * (13 / 10)
        priceForecasting := base.priceForecasting * (8 / 10) }
    else if preferences.riskTolerance = "high" then
      { base with
        priceForecasting := base.priceForecasting * (13 / 10)
        sentiment := base.sentiment * (12 / 10)
        anomalies := base.anomalies * (7 / 10) }
    else base
  let w2 :=
    if preferences.investmentHorizon = "short" then
      { w1 with
        sentiment := w1.sentiment * (13 / 10)
        priceForecasting := w1.priceForecasting * (12 / 10)
        fundamentals := w1.fundamentals * (7 / 10) }
    else if preferences.investmentHorizon = "long" then
      { w1 with
        fundamentals := w1.fundamentals * (15 / 10)
        anomalies := w1.anomalies * (12 / 10)
        sentiment := w1.sentiment * (8 / 10) }
    else w1
  let w3 :=
    if 7 / 10 < preferences.incomePreference then
      { w2 with anomalies := w2.anomalies * (13 / 10) }
    else if preferences.incomePreference < 3 / 10 then
      { w2 with priceForecasting := w2.priceForecasting * (13 / 10) }
    else w2
  let sum := w3.priceForecasting + w3.sentiment + w3.anomalies + w3.fundamentals
  ⟨w3.priceForecasting / sum, w3.sentiment / sum, w3.anomalies / sum, w3.fundamentals / sum⟩

/-- Embeds `RecommendationEngine.determineRecommendation`: the combined score
is checked against `strongBuy`, then `buy`, then `strongSell`, then `sell`,
and defaults to `hold`. -/
def determineRecommendation (thresholds : Thresholds) (score : ℚ) : String :=
  if thresholds.strongBuy ≤ score then "strong_buy"
  else if thresholds.buy ≤ score then "buy"
  else if score ≤ thresholds.strongSell then "strong_sell"
  else if score ≤ thresholds.sell then "sell"
  else "hold"

/-- The `anomalies` argument of `calculateAnomalyScore`: a detection result
whose own `anomalies` field may itself be missing. -/
structure AnomalyInput where
  anomalies : Option (List Anomaly)

/-- Embeds `RecommendationEngine.calculateAnomalyScore`: a missing argument
or a missing `anomalies` field scores 0, an empty anomaly list scores 0.1,
and otherwise each anomaly contributes `±0.5` by type, scaled by
`Math.min(1, |deviation| / 50)` and by a severity multiplier (1 / 0.7 / 0.4),
averaged over the anomalies and clamped to `[-1, 1]`. -/
def calculateAnomalyScore (input : Option AnomalyInput) : ℚ :=
  match input with
  | none => 0
  | some a =>
    match a.anomalies with
    | none => 0
    | some l =>
      if l.length = 0 then 1 / 10
      else
        let totalScore := (l.map (fun anomaly =>
          let impact : ℚ :=
            if anomaly.type = "high_value" then 5 / 10
            else if anomaly.type = "low_value" then -(5 / 10)
            else 0
          let impact := impact * min 1 (|anomaly.deviation| / 50)
          let impact := impact *
            (if anomaly.severity = "high" then 1
             else if anomaly.severity = "medium" then 7 / 10
             else 4 / 10)
          impact)).sum
        let totalScore := if 0 < l.length then totalScore / (l.length : ℚ) else totalScore
        max (-1) (min 1 totalScore)

/-- Concrete five-point dividend series used to witness C5. -/
def sampleDividendData : List Observation :=
  [Observation.mk "d0" 1 none none, Observation.mk "d1" 1 none none,
   Observation.mk "d2" 1 none none, Observation.mk "d3" 1 none none,
   Observation.mk "d4" 6 none none]

/-- Concrete single-method result map used to witness C5: one method flags
index 4 with score 0.9. -/
def sampleMethods : List (String × MethodResult) :=
  [("m1", MethodResult.mk [4] [(4, 9 / 10)] (5 / 2))]

/-- The anomaly record that `detectDividendAnomalies` builds on
`sampleDividendData` with `sampleMethods`. -/
def sampleAnomaly : Anomaly :=
  Anomaly.mk "d4" 6 (9 / 10) "high" "high_value" 200 ["m1"]

theorem mem_insertIndex {acc : List ℕ} {i j : ℕ} :
    j ∈ insertIndex acc i ↔ j ∈ acc ∨ j = i := by
  unfold insertIndex
  by_cases h : i ∈ acc
  · rw [if_pos h]
    exact ⟨Or.inl, fun hc => hc.elim id (fun e => e ▸ h)⟩
  · rw [if_neg h]
    simp

theorem mem_foldl_insertIndex (l : List ℕ) (acc : List ℕ) (j : ℕ) :
    j ∈ l.foldl insertIndex acc ↔ j ∈ acc ∨ j ∈ l := by
  induction l generalizing acc with
  | nil => simp
  | cons x xs ih =>
    rw [List.foldl_cons, ih, mem_insertIndex]
    simp
    tauto

theorem mem_allIndicesOf (methods : List (String × MethodResult)) (j : ℕ) :
    j ∈ allIndicesOf methods ↔ ∃ m ∈ methods, j ∈ m.2.anomalyIndices := by
  unfold allIndicesOf
  suffices h : ∀ acc : List ℕ,
      (j ∈ methods.foldl (fun acc m => m.2.anomalyIndices.foldl insertIndex acc) acc ↔
        j ∈ acc ∨ ∃ m ∈ methods, j ∈ m.2.anomalyIndices) by
    simpa using h []
  intro acc
  induction methods generalizing acc with
  | nil => simp
  | cons x xs ih =>
    rw [List.foldl_cons, ih, mem_foldl_insertIndex]
    simp
    tauto

theorem indexCount_append (methods : List (String × MethodResult))
    (p : String × MethodResult) (i : ℕ) :
    indexCount (methods ++ [p]) i = indexCount methods i + p.2.anomalyIndices.count i := by
  unfold indexCount
  simp

theorem calculateVariance_nonneg (values : List ℚ) : 0 ≤ calculateVariance values := by
  unfold calculateVariance
  split
  · exact le_refl 0
  · apply div_nonneg
    · apply List.sum_nonneg
      intro x hx
      rw [List.mem_map] at hx
      obtain ⟨v, -, rfl⟩ := hx
      positivity
    · positivity

theorem find?_cons_map_eq (f : ℕ → ℚ) (i : ℕ) (l : List ℕ) (hmem : i ∈ l) :
    (l.map (fun j => (j, f j))).find? (fun p => p.1 == i) = some (i, f i) := by
  induction l with
  | nil => simp at hmem
  | cons x xs ih =>
    by_cases hx : x = i
    · subst hx
      simp [List.find?]
    · have hxs : i ∈ xs := by
        rcases List.mem_cons.mp hmem with h | h
        · exact absurd h.symm hx
        · exact h
      have hbeq : (x == i) = false := by simp [hx]
      simp [List.find?, hbeq, ih hxs]

theorem scoreLookup_range_map (f : ℕ → ℚ) (n i : ℕ) (hi : i < n) :
    scoreLookup ((List.range n).map (fun j => (j, f j))) i = some (f i) := by
  unfold scoreLookup
  rw [find?_cons_map_eq f i _ (List.mem_range.mpr hi)]
  rfl

theorem iqrScoreOf_inside (k : ℚ) (values : List ℚ) (value : ℚ)
    (hlow : iqrLowerBound k values ≤ value) (hhigh : value ≤ iqrUpperBound k values)
    (hrange : iqrLowerBound k values < iqrUpperBound k values) :
    iqrScoreOf k values value =
      |value - (iqrLowerBound k values +
        (iqrUpperBound k values - iqrLowerBound k values) / 2)| /
        (iqrUpperBound k values - iqrLowerBound k values) * (1 / 2) ∧
    0 ≤ iqrScoreOf k values value ∧ iqrScoreOf k values value ≤ 1 / 2 ∧
    (iqrScoreOf k values value = 0 ↔
      value = iqrLowerBound k values +
        (iqrUpperBound k values - iqrLowerBound k values) / 2) := by
  have hcond : ¬ (value < iqrLowerBound k values ∨ iqrUpperBound k values < value) := by
    push_neg
    exact ⟨hlow, hhigh⟩
  have hr : 0 < iqrUpperBound k values - iqrLowerBound k values := by linarith
  have heq : iqrScoreOf k values value =
      |value - (iqrLowerBound k values +
        (iqrUpperBound k values - iqrLowerBound k values) / 2)| /
        (iqrUpperBound k values - iqrLowerBound k values) * (1 / 2) := by
    unfold iqrScoreOf
    rw [if_neg hcond]
  refine ⟨heq, ?_, ?_, ?_⟩
  · rw [heq]
    exact mul_nonneg (div_nonneg (abs_nonneg _) hr.le) (by norm_num)
  · rw [heq]
    have habs : |value - (iqrLowerBound k values +
        (iqrUpperBound k values - iqrLowerBound k values) / 2)| ≤
        (iqrUpperBound k values - iqrLowerBound k values) / 2 := by
      rw [abs_le]
      constructor <;> [linarith; linarith]
    have hdiv : |value - (iqrLowerBound k values +
        (iqrUpperBound k values - iqrLowerBound k values) / 2)| /
        (iqrUpperBound k values - iqrLowerBound k values) ≤ 1 / 2 := by
      rw [div_le_iff₀ hr]
      linarith
    have hnn : 0 ≤ |value - (iqrLowerBound k values +
        (iqrUpperBound k values - iqrLowerBound k values) / 2)| /
        (iqrUpperBound k values - iqrLowerBound k values) :=
      div_nonneg (abs_nonneg _) hr.le
    linarith
  · rw [heq, mul_eq_zero, div_eq_zero_iff, abs_eq_zero, sub_eq_zero]
    constructor
    · intro hc
      rcases hc with (hv | hr0) | h2
      · exact hv
      · exact absurd hr0 (ne_of_gt hr)
      · norm_num at h2
    · intro hv
      exact Or.inl (Or.inl hv)

theorem iqrScoreOf_unit (k : ℚ) (values : List ℚ) (value : ℚ)
    (hlb : 0 ≤ iqrLowerBound k values)
    (hbounds : iqrLowerBound k values < iqrUpperBound k values) :
    0 ≤ iqrScoreOf k values value ∧ iqrScoreOf k values value ≤ 1 := by
  by_cases hout : value < iqrLowerBound k values ∨ iqrUpperBound k values < value
  · unfold iqrScoreOf
    rw [if_pos hout]
    by_cases hlt : value < iqrLowerBound k values
    · rw [if_pos hlt]
      by_cases h0 : iqrLowerBound k values = 0
      · rw [if_pos h0]
        refine ⟨le_min (by rw [h0] at hlt; nlinarith) (by norm_num), min_le_right _ _⟩
      · rw [if_neg h0]
        have hpos : 0 < iqrLowerBound k values := lt_of_le_of_ne hlb (Ne.symm h0)
        refine ⟨le_min (div_nonneg (by linarith) hpos.le) (by norm_num), min_le_right _ _⟩
    · have hgt : iqrUpperBound k values < value := hout.resolve_left hlt
      rw [if_neg hlt]
      have hupos : 0 < iqrUpperBound k values := by linarith
      rw [if_neg (ne_of_gt hupos)]
      refine ⟨le_min (div_nonneg (by linarith) hupos.le) (by norm_num), min_le_right _ _⟩
  · push_neg at hout
    obtain ⟨-, h0, h12, -⟩ := iqrScoreOf_inside k values value hout.1 hout.2 hbounds
    exact ⟨h0, by linarith⟩

/-- C3: for every fixed map of method results, the indices returned by
`combineAnomalyDetections` under ensemble method "majority" form a subset of
those returned under "any", and the anomaly count never increases when
switching from "any" to "majority". -/
theorem ensemble_majority_subset_any (methods : List (String × MethodResult)) :
    combineAnomalyDetections "majority" methods ⊆ combineAnomalyDetections "any" methods ∧
    (combineAnomalyDetections "majority" methods).length ≤
      (combineAnomalyDetections "any" methods).length := by
  unfold combineAnomalyDetections
  simp only [reduceIte, String.reduceEq]
  exact ⟨fun x hx => (List.mem_filter.mp hx).1, List.length_filter_le _ _⟩

/-- C4: under the "majority" ensemble policy, an index included in the
combined result stays included after appending one more method result that
also flags it (the required `Math.ceil(methodCount / 2)` grows by at most the
added detection). -/
theorem ensemble_majority_monotonic (methods : List (String × MethodResult))
    (name : String) (m : MethodResult) (i : ℕ)
    (_hname : name ∉ methods.map Prod.fst)
    (hmem : i ∈ combineAnomalyDetections "majority" methods)
    (hflag : i ∈ m.anomalyIndices) :
    i ∈ combineAnomalyDetections "majority" (methods ++ [(name, m)]) := by
  unfold combineAnomalyDetections at hmem ⊢
  simp only [reduceIte, String.reduceEq] at hmem ⊢
  rw [List.mem_filter] at hmem ⊢
  obtain ⟨hall, hcount⟩ := hmem
  rw [decide_eq_true_iff] at hcount
  have hcm : 1 ≤ m.anomalyIndices.count i := List.count_pos_iff.mpr hflag
  constructor
  · rw [mem_allIndicesOf]
    exact ⟨(name, m), List.mem_append_right _ (List.mem_singleton.mpr rfl), hflag⟩
  · rw [decide_eq_true_iff, indexCount_append, List.length_append]
    rw [mem_allIndicesOf] at hall
    simp only [List.length_singleton]
    omega

/-- Witness for C4 at a concrete methods map: index 3 is flagged by both
statistical methods, passes the two-method majority, and survives the
addition of a third method that also flags it. -/
theorem ensemble_majority_monotonic_witness :
    ("isolationForest" ∉
      ([("zScore", MethodResult.mk [3] [(3, 9/10)] (5/2)),
        ("iqr", MethodResult.mk [3] [(3, 1)] (3/2))]).map Prod.fst) ∧
    3 ∈ combineAnomalyDetections "majority"
      [("zScore", MethodResult.mk [3] [(3, 9/10)] (5/2)),
       ("iqr", MethodResult.mk [3] [(3, 1)] (3/2))] ∧
    3 ∈ (MethodResult.mk [3] ([] : List (ℕ × ℚ)) 1).anomalyIndices ∧
    3 ∈ combineAnomalyDetections "majority"
      ([("zScore", MethodResult.mk [3] [(3, 9/10)] (5/2)),
        ("iqr", MethodResult.mk [3] [(3, 1)] (3/2))] ++
       [("isolationForest", MethodResult.mk [3] ([] : List (ℕ × ℚ)) 1)]) :=
  ⟨by decide, by decide, by decide,
    ensemble_majority_monotonic _ _ _ _ (by decide) (by decide) (by decide)⟩

/-- C6: with the default thresholds, `determineRecommendation` maps 0.75 to
strong_buy, 0.60 to buy, 0.0 to hold, -0.60 to sell and -0.75 to
strong_sell. -/
theorem determineRecommendation_default_scenarios :
    determineRecommendation defaultThresholds (75 / 100) = "strong_buy" ∧
    determineRecommendation defaultThresholds (60 / 100) = "buy" ∧
    determineRecommendation defaultThresholds 0 = "hold" ∧
    determineRecommendation defaultThresholds (-(60 / 100)) = "sell" ∧
    determineRecommendation defaultThresholds (-(75 / 100)) = "strong_sell" := by
  norm_num [determineRecommendation, defaultThresholds]

/-- C10: `calculateAnomalyScore` distinguishes a missing detection result
from an empty one: a missing argument or a missing `anomalies` field returns
exactly 0, while a present but empty anomaly list returns exactly 0.1. -/
theorem calculateAnomalyScore_missing_vs_empty (a b : AnomalyInput)
    (ha : a.anomalies = none) (hb : b.anomalies = some []) :
    calculateAnomalyScore none = 0 ∧
    calculateAnomalyScore (some a) = 0 ∧
    calculateAnomalyScore (some b) = 1 / 10 := by
  refine ⟨rfl, ?_, ?_⟩
  · obtain ⟨oa⟩ := a
    have ha2 : oa = none := ha
    subst ha2
    rfl
  · obtain ⟨ob⟩ := b
    have hb2 : ob = some [] := hb
    subst hb2
    rfl

/-- Witness for C10 at the two concrete inputs. -/
theorem calculateAnomalyScore_missing_vs_empty_witness :
    (AnomalyInput.mk none).anomalies = none ∧
    (AnomalyInput.mk (some [])).anomalies = some [] ∧
    (calculateAnomalyScore none = 0 ∧
     calculateAnomalyScore (some (AnomalyInput.mk none)) = 0 ∧
     calculateAnomalyScore (some (AnomalyInput.mk (some []))) = 1 / 10) :=
  ⟨rfl, rfl, calculateAnomalyScore_missing_vs_empty _ _ rfl rfl⟩

theorem adjustWeights_low_medium (p s a f : ℚ) :
    adjustWeightsByPreferences (Weights.mk p s a f) (Preferences.mk "low" "medium" (5 / 10)) =
      Weights.mk (p * (8 / 10) / (p * (8 / 10) + s + a * (15 / 10) + f * (13 / 10)))
        (s / (p * (8 / 10) + s + a * (15 / 10) + f * (13 / 10)))
        (a * (15 / 10) / (p * (8 / 10) + s + a * (15 / 10) + f * (13 / 10)))
        (f * (13 / 10) / (p * (8 / 10) + s + a * (15 / 10) + f * (13 / 10))) := by
  unfold adjustWeightsByPreferences
  simp only [String.reduceEq, reduceIte]
  norm_num

/-- C7: with risk tolerance low (horizon medium, income preference 0.5, so no
other adjustment fires) and positive base weights summing to 1,
`adjustWeightsByPreferences` returns weights summing to 1 in which the
anomalies weight strictly exceeds the base anomalies weight. -/
theorem adjustWeights_lowRisk_increases_anomaly_weight (base : Weights)
    (hp : 0 < base.priceForecasting) (hs : 0 < base.sentiment)
    (ha : 0 < base.anomalies) (hf : 0 < base.fundamentals)
    (hsum : base.priceForecasting + base.sentiment + base.anomalies + base.fundamentals = 1) :
    ((adjustWeightsByPreferences base (Preferences.mk "low" "medium" (5 / 10))).priceForecasting +
        (adjustWeightsByPreferences base (Preferences.mk "low" "medium" (5 / 10))).sentiment +
        (adjustWeightsByPreferences base (Preferences.mk "low" "medium" (5 / 10))).anomalies +
        (adjustWeightsByPreferences base (Preferences.mk "low" "medium" (5 / 10))).fundamentals
      = 1) ∧
    base.anomalies <
      (adjustWeightsByPreferences base (Preferences.mk "low" "medium" (5 / 10))).anomalies := by
  obtain ⟨p, s, a, f⟩ := base
  simp only at hp hs ha hf hsum
  rw [adjustWeights_low_medium]
  simp only
  have hsumpos : 0 < p * (8 / 10) + s + a * (15 / 10) + f * (13 / 10) := by linarith
  constructor
  · field_simp
  · rw [lt_div_iff₀ hsumpos]
    nlinarith [mul_pos ha hsumpos]

/-- Witness for C7 at the default weights (0.4 / 0.3 / 0.2 / 0.1). -/
theorem adjustWeights_lowRisk_witness :
    (0 < defaultWeights.priceForecasting ∧ 0 < defaultWeights.sentiment ∧
      0 < defaultWeights.anomalies ∧ 0 < defaultWeights.fundamentals ∧
      defaultWeights.priceForecasting + defaultWeights.sentiment +
        defaultWeights.anomalies + defaultWeights.fundamentals = 1) ∧
    (((adjustWeightsByPreferences defaultWeights
          (Preferences.mk "low" "medium" (5 / 10))).priceForecasting +
        (adjustWeightsByPreferences defaultWeights
          (Preferences.mk "low" "medium" (5 / 10))).sentiment +
        (adjustWeightsByPreferences defaultWeights
          (Preferences.mk "low" "medium" (5 / 10))).anomalies +
        (adjustWeightsByPreferences defaultWeights
          (Preferences.mk "low" "medium" (5 / 10))).fundamentals = 1) ∧
      defaultWeights.anomalies <
        (adjustWeightsByPreferences defaultWeights
          (Preferences.mk "low" "medium" (5 / 10))).anomalies) :=
  ⟨⟨by norm_num [defaultWeights], by norm_num [defaultWeights], by norm_num [defaultWeights],
      by norm_num [defaultWeights], by norm_num [defaultWeights]⟩,
    adjustWeights_lowRisk_increases_anomaly_weight defaultWeights
      (by norm_num [defaultWeights]) (by norm_num [defaultWeights])
      (by norm_num [defaultWeights]) (by norm_num [defaultWeights])
      (by norm_num [defaultWeights])⟩

theorem iqr_scoreLookup (k : ℚ) (values : List ℚ) (i : ℕ) (hi : i < values.length) :
    scoreLookup (detectAnomaliesWithIQR k values).anomalyScores i =
      some (iqrScoreOf k values (values.getD i 0)) := by
  unfold detectAnomaliesWithIQR
  exact scoreLookup_range_map _ _ _ hi

theorem iqr_mem_anomalyIndices (k : ℚ) (values : List ℚ) (i : ℕ) :
    i ∈ (detectAnomaliesWithIQR k values).anomalyIndices ↔
      i < values.length ∧ (values.getD i 0 < iqrLowerBound k values ∨
        iqrUpperBound k values < values.getD i 0) := by
  unfold detectAnomaliesWithIQR
  simp [List.mem_filter, List.mem_range]

theorem zscore_scores_unit (zt : ℚ) (values : List ℚ)
    (hzt : 0 < zt) (hvar : calculateVariance values ≠ 0) :
    ∀ s ∈ (detectAnomaliesWithZScore zt values).anomalyScores,
      ∃ x : ℝ, s = JSNum.num x ∧ 0 ≤ x ∧ x ≤ 1 := by
  intro s hs
  have hvpos : (0 : ℝ) < ((calculateVariance values : ℚ) : ℝ) := by
    have h1 := calculateVariance_nonneg values
    have h2 : (0 : ℚ) < calculateVariance values := lt_of_le_of_ne h1 (Ne.symm hvar)
    exact_mod_cast h2
  have hσ : 0 < calculateStdDev values := Real.sqrt_pos.mpr hvpos
  have hzt2 : (0 : ℝ) < ((zt : ℚ) : ℝ) * 2 := by
    have : (0 : ℝ) < ((zt : ℚ) : ℝ) := by exact_mod_cast hzt
    linarith
  unfold detectAnomaliesWithZScore at hs
  simp only [List.mem_map] at hs
  obtain ⟨z, ⟨v, hv, rfl⟩, rfl⟩ := hs
  unfold jdiv
  rw [if_neg (ne_of_gt hσ)]
  unfold jabs jdivPos jminOne
  refine ⟨_, rfl, ?_, min_le_right _ _⟩
  exact le_min (div_nonneg (abs_nonneg _) hzt2.le) zero_le_one

/-- C2 counterexample: on the series [-10, -10, -10, -10, -1] the IQR bounds
are both -10; the flagged value -1 at index 4 gets score
(-1 - (-10)) / (-10) = -0.9, which lies outside [0, 1]. -/
theorem iqr_score_negative_counterexample :
    4 ∈ (detectAnomaliesWithIQR (3 / 2) [-10, -10, -10, -10, -1]).anomalyIndices ∧
    scoreLookup (detectAnomaliesWithIQR (3 / 2) [-10, -10, -10, -10, -1]).anomalyScores 4 =
      some (-(9 / 10)) := by
  have hsort : iqrSorted [-10, -10, -10, -10, -1] = [-10, -10, -10, -10, -1] := by
    norm_num [iqrSorted, List.insertionSort, List.orderedInsert]
  have hq1 : iqrQ1 [-10, -10, -10, -10, -1] = -10 := by
    rw [iqrQ1, hsort]
    rfl
  have hq3 : iqrQ3 [-10, -10, -10, -10, -1] = -10 := by
    rw [iqrQ3, hsort]
    rfl
  have hlb : iqrLowerBound (3 / 2) [-10, -10, -10, -10, -1] = -10 := by
    rw [iqrLowerBound, hq1, hq3]
    norm_num
  have hub : iqrUpperBound (3 / 2) [-10, -10, -10, -10, -1] = -10 := by
    rw [iqrUpperBound, hq1, hq3]
    norm_num
  have hval : ([-10, -10, -10, -10, -1] : List ℚ).getD 4 0 = -1 := rfl
  constructor
  · rw [iqr_mem_anomalyIndices, hlb, hub, hval]
    norm_num
  · rw [iqr_scoreLookup _ _ _ (by norm_num), hval]
    unfold iqrScoreOf
    rw [hlb, hub]
    norm_num [min_def]

/-- C2 amended: provided the series variance is nonzero (Z-score; otherwise
the stored scores are NaN) and the computed IQR bounds satisfy
0 ≤ lowerBound < upperBound (IQR; a negative bound flips the sign of the
normalized distance), every anomaly score of both statistical methods lies
in [0, 1]. -/
theorem method_scores_in_unit_interval (zt k : ℚ) (values : List ℚ)
    (hzt : 0 < zt) (hvar : calculateVariance values ≠ 0)
    (hlb : 0 ≤ iqrLowerBound k values)
    (hbounds : iqrLowerBound k values < iqrUpperBound k values) :
    (∀ p ∈ (detectAnomaliesWithIQR k values).anomalyScores, 0 ≤ p.2 ∧ p.2 ≤ 1) ∧
    (∀ s ∈ (detectAnomaliesWithZScore zt values).anomalyScores,
      ∃ x : ℝ, s = JSNum.num x ∧ 0 ≤ x ∧ x ≤ 1) := by
  constructor
  · intro p hp
    unfold detectAnomaliesWithIQR at hp
    simp only [List.mem_map, List.mem_range] at hp
    obtain ⟨j, hj, rfl⟩ := hp
    exact iqrScoreOf_unit k values _ hlb hbounds
  · exact zscore_scores_unit zt values hzt hvar

/-- Witness for the amended C2 on the series [10, ..., 17] with the default
thresholds: variance 21/4, IQR bounds [6, 22]. -/
theorem method_scores_in_unit_interval_witness :
    ((0 : ℚ) < 5 / 2 ∧
      calculateVariance [10, 11, 12, 13, 14, 15, 16, 17] ≠ 0 ∧
      0 ≤ iqrLowerBound (3 / 2) [10, 11, 12, 13, 14, 15, 16, 17] ∧
      iqrLowerBound (3 / 2) [10, 11, 12, 13, 14, 15, 16, 17] <
        iqrUpperBound (3 / 2) [10, 11, 12, 13, 14, 15, 16, 17]) ∧
    ((∀ p ∈ (detectAnomaliesWithIQR (3 / 2) [10, 11, 12, 13, 14, 15, 16, 17]).anomalyScores,
        0 ≤ p.2 ∧ p.2 ≤ 1) ∧
      (∀ s ∈ (detectAnomaliesWithZScore (5 / 2) [10, 11, 12, 13, 14, 15, 16, 17]).anomalyScores,
        ∃ x : ℝ, s = JSNum.num x ∧ 0 ≤ x ∧ x ≤ 1)) := by
  have hsort : iqrSorted [10, 11, 12, 13, 14, 15, 16, 17] =
      [10, 11, 12, 13, 14, 15, 16, 17] := by
    norm_num [iqrSorted, List.insertionSort, List.orderedInsert]
  have hq1 : iqrQ1 [10, 11, 12, 13, 14, 15, 16, 17] = 12 := by
    rw [iqrQ1, hsort]
    rfl
  have hq3 : iqrQ3 [10, 11, 12, 13, 14, 15, 16, 17] = 16 := by
    rw [iqrQ3, hsort]
    rfl
  have hlb : iqrLowerBound (3 / 2) [10, 11, 12, 13, 14, 15, 16, 17] = 6 := by
    rw [iqrLowerBound, hq1, hq3]
    norm_num
  have hub : iqrUpperBound (3 / 2) [10, 11, 12, 13, 14, 15, 16, 17] = 22 := by
    rw [iqrUpperBound, hq1, hq3]
    norm_num
  have hvar : calculateVariance [10, 11, 12, 13, 14, 15, 16, 17] ≠ 0 := by
    norm_num [calculateVariance, calculateMean]
  refine ⟨⟨by norm_num, hvar, by rw [hlb]; norm_num, by rw [hlb, hub]; norm_num⟩, ?_⟩
  exact method_scores_in_unit_interval (5 / 2) (3 / 2) _ (by norm_num) hvar
    (by rw [hlb]; norm_num) (by rw [hlb, hub]; norm_num)

theorem iqrLowerBound_01234 : iqrLowerBound (3 / 2) [0, 1, 2, 3, 4] = -2 := by
  have hsort : iqrSorted [0, 1, 2, 3, 4] = [0, 1, 2, 3, 4] := by
    norm_num [iqrSorted, List.insertionSort, List.orderedInsert]
  rw [iqrLowerBound, iqrQ1, iqrQ3, hsort]
  norm_num

theorem iqrUpperBound_01234 : iqrUpperBound (3 / 2) [0, 1, 2, 3, 4] = 6 := by
  have hsort : iqrSorted [0, 1, 2, 3, 4] = [0, 1, 2, 3, 4] := by
    norm_num [iqrSorted, List.insertionSort, List.orderedInsert]
  rw [iqrUpperBound, iqrQ1, iqrQ3, hsort]
  norm_num

/-- C8 counterexample: in the series [0, 1, 2, 3, 4] the IQR bounds are
[-2, 6]; the value 2 at index 2 lies inside the bounds (at their exact
center) and is assigned anomaly score exactly 0, refuting the claim that
inside-bounds scores are strictly positive. -/
theorem iqr_inside_score_zero_counterexample :
    iqrLowerBound (3 / 2) [0, 1, 2, 3, 4] ≤ ([0, 1, 2, 3, 4] : List ℚ).getD 2 0 ∧
    ([0, 1, 2, 3, 4] : List ℚ).getD 2 0 ≤ iqrUpperBound (3 / 2) [0, 1, 2, 3, 4] ∧
    scoreLookup (detectAnomaliesWithIQR (3 / 2) [0, 1, 2, 3, 4]).anomalyScores 2 =
      some 0 := by
  have hval : ([0, 1, 2, 3, 4] : List ℚ).getD 2 0 = 2 := rfl
  refine ⟨by rw [hval, iqrLowerBound_01234]; norm_num,
    by rw [hval, iqrUpperBound_01234]; norm_num, ?_⟩
  rw [iqr_scoreLookup _ _ _ (by norm_num), hval]
  unfold iqrScoreOf
  rw [iqrLowerBound_01234, iqrUpperBound_01234]
  norm_num

/-- C8 amended: for every value lying inside the IQR bounds (with the bounds
distinct, which keeps the JavaScript division finite), the assigned score is
exactly 0.5 times the distance from the bound-center divided by the bound
range, hence nonnegative and at most 0.5 — and it is zero exactly when the
value sits at the bound-center, so it is not always strictly positive. -/
theorem iqr_inside_score_bounded (k : ℚ) (values : List ℚ) (i : ℕ)
    (hi : i < values.length)
    (hlow : iqrLowerBound k values ≤ values.getD i 0)
    (hhigh : values.getD i 0 ≤ iqrUpperBound k values)
    (hrange : iqrLowerBound k values < iqrUpperBound k values) :
    ∃ s, scoreLookup (detectAnomaliesWithIQR k values).anomalyScores i = some s ∧
      s = |values.getD i 0 - (iqrLowerBound k values +
        (iqrUpperBound k values - iqrLowerBound k values) / 2)| /
        (iqrUpperBound k values - iqrLowerBound k values) * (1 / 2) ∧
      0 ≤ s ∧ s ≤ 1 / 2 ∧
      (s = 0 ↔ values.getD i 0 = iqrLowerBound k values +
        (iqrUpperBound k values - iqrLowerBound k values) / 2) := by
  obtain ⟨heq, h0, hhalf, hzero⟩ :=
    iqrScoreOf_inside k values (values.getD i 0) hlow hhigh hrange
  exact ⟨_, iqr_scoreLookup k values i hi, heq, h0, hhalf, hzero⟩

/-- Witness for the amended C8: in the series [0, 1, 2, 3, 4] the value 1 at
index 1 lies inside the bounds [-2, 6] and its score is 1/16. -/
theorem iqr_inside_score_bounded_witness :
    ((1 : ℕ) < ([0, 1, 2, 3, 4] : List ℚ).length ∧
      iqrLowerBound (3 / 2) [0, 1, 2, 3, 4] ≤ ([0, 1, 2, 3, 4] : List ℚ).getD 1 0 ∧
      ([0, 1, 2, 3, 4] : List ℚ).getD 1 0 ≤ iqrUpperBound (3 / 2) [0, 1, 2, 3, 4] ∧
      iqrLowerBound (3 / 2) [0, 1, 2, 3, 4] < iqrUpperBound (3 / 2) [0, 1, 2, 3, 4]) ∧
    (∃ s, scoreLookup (detectAnomaliesWithIQR (3 / 2) [0, 1, 2, 3, 4]).anomalyScores 1 =
        some s ∧
      s = |([0, 1, 2, 3, 4] : List ℚ).getD 1 0 - (iqrLowerBound (3 / 2) [0, 1, 2, 3, 4] +
        (iqrUpperBound (3 / 2) [0, 1, 2, 3, 4] - iqrLowerBound (3 / 2) [0, 1, 2, 3, 4]) / 2)| /
        (iqrUpperBound (3 / 2) [0, 1, 2, 3, 4] - iqrLowerBound (3 / 2) [0, 1, 2, 3, 4]) *
          (1 / 2) ∧
      0 ≤ s ∧ s ≤ 1 / 2 ∧
      (s = 0 ↔ ([0, 1, 2, 3, 4] : List ℚ).getD 1 0 = iqrLowerBound (3 / 2) [0, 1, 2, 3, 4] +
        (iqrUpperBound (3 / 2) [0, 1, 2, 3, 4] - iqrLowerBound (3 / 2) [0, 1, 2, 3, 4]) / 2)) := by
  have hval : ([0, 1, 2, 3, 4] : List ℚ).getD 1 0 = 1 := rfl
  have h1 : iqrLowerBound (3 / 2) [0, 1, 2, 3, 4] ≤ ([0, 1, 2, 3, 4] : List ℚ).getD 1 0 := by
    rw [hval, iqrLowerBound_01234]
    norm_num
  have h2 : ([0, 1, 2, 3, 4] : List ℚ).getD 1 0 ≤ iqrUpperBound (3 / 2) [0, 1, 2, 3, 4] := by
    rw [hval, iqrUpperBound_01234]
    norm_num
  have h3 : iqrLowerBound (3 / 2) [0, 1, 2, 3, 4] < iqrUpperBound (3 / 2) [0, 1, 2, 3, 4] := by
    rw [iqrLowerBound_01234, iqrUpperBound_01234]
    norm_num
  exact ⟨⟨by norm_num, h1, h2, h3⟩,
    iqr_inside_score_bounded (3 / 2) [0, 1, 2, 3, 4] 1 (by norm_num) h1 h2 h3⟩

/-- C1: on the constant series [5, 5, 5, 5, 5] the standard deviation is 0
and every z-score is the JavaScript division 0 / 0 = NaN: the detector does
return zero anomalies (only because NaN > 2.5 is false), but it stores NaN —
not 0 — as every entry of the anomalyScores map, so NaN does propagate. -/
theorem zscore_constant_series_nan :
    (detectAnomaliesWithZScore (5 / 2) [5, 5, 5, 5, 5]).anomalyIndices = [] ∧
    (detectAnomaliesWithZScore (5 / 2) [5, 5, 5, 5, 5]).anomalyScores =
      [JSNum.nan, JSNum.nan, JSNum.nan, JSNum.nan, JSNum.nan] := by
  have hmean : calculateMean [5, 5, 5, 5, 5] = 5 := by
    norm_num [calculateMean]
  have hvar : calculateVariance [(5 : ℚ), 5, 5, 5, 5] = 0 := by
    norm_num [calculateVariance, calculateMean]
  have hstd : calculateStdDev [(5 : ℚ), 5, 5, 5, 5] = 0 := by
    unfold calculateStdDev
    rw [hvar]
    simp
  have hnan : jabs (jdiv (((5 : ℚ) : ℝ) - ((calculateMean [5, 5, 5, 5, 5] : ℚ) : ℝ))
      (calculateStdDev [5, 5, 5, 5, 5])) = JSNum.nan := by
    rw [hmean, hstd]
    norm_num [jdiv, jabs]
  have hres : detectAnomaliesWithZScore (5 / 2) [5, 5, 5, 5, 5] =
      ⟨[], [JSNum.nan, JSNum.nan, JSNum.nan, JSNum.nan, JSNum.nan], 5 / 2⟩ := by
    unfold detectAnomaliesWithZScore
    simp only [List.map_cons, List.map_nil, hnan]
    rfl
  rw [hres]
  exact ⟨rfl, rfl⟩

theorem buildAnomaly_invariants (values : List ℚ) (dates : List String)
    (methods : List (String × MethodResult)) (i : ℕ) :
    ((buildAnomaly values dates methods i).type = "high_value" ↔
      calculateMean values < (buildAnomaly values dates methods i).value) ∧
    ((buildAnomaly values dates methods i).severity = "high" ↔
      8 / 10 < (buildAnomaly values dates methods i).anomalyScore) ∧
    ((buildAnomaly values dates methods i).severity = "medium" ↔
      (5 / 10 < (buildAnomaly values dates methods i).anomalyScore ∧
        (buildAnomaly values dates methods i).anomalyScore ≤ 8 / 10)) ∧
    ((buildAnomaly values dates methods i).severity = "low" ↔
      (buildAnomaly values dates methods i).anomalyScore ≤ 5 / 10) := by
  unfold buildAnomaly
  simp only
  refine ⟨?_, ?_, ?_, ?_⟩
  · by_cases h : calculateMean values < values.getD i 0
    · simp [h]
    · simp [h]
  · by_cases h8 : 8 / 10 < anomalyScoreAt methods i
    · simp [h8]
    · by_cases h5 : 5 / 10 < anomalyScoreAt methods i
      · simp [h8, h5]
      · simp [h8, h5]
  · by_cases h8 : 8 / 10 < anomalyScoreAt methods i
    · have hn : ¬ anomalyScoreAt methods i ≤ 8 / 10 := not_le.mpr h8
      simp [h8, hn]
    · by_cases h5 : 5 / 10 < anomalyScoreAt methods i
      · simp [h8, h5, not_lt.mp h8]
      · simp [h8, h5]
  · by_cases h8 : 8 / 10 < anomalyScoreAt methods i
    · have hn : ¬ anomalyScoreAt methods i ≤ 5 / 10 := not_le.mpr (by linarith)
      simp [h8, hn]
    · by_cases h5 : 5 / 10 < anomalyScoreAt methods i
      · simp [h8, h5, not_le.mpr h5]
      · simp [h8, h5, not_lt.mp h5]

/-- C5: every anomaly record produced by `detectDividendAnomalies` has type
"high_value" exactly when its value strictly exceeds the mean of the series
values, and its severity is "high" when its score exceeds 0.8, "medium" when
the score exceeds 0.5 (but not 0.8), and "low" otherwise. -/
theorem anomaly_record_invariants (ensembleMethod : String)
    (computeMethods : List ℚ → List (String × MethodResult))
    (data : List Observation) (a : Anomaly)
    (ha : a ∈ (detectDividendAnomalies ensembleMethod computeMethods (some data)).anomalies) :
    (a.type = "high_value" ↔ calculateMean (data.map Observation.value) < a.value) ∧
    (a.severity = "high" ↔ 8 / 10 < a.anomalyScore) ∧
    (a.severity = "medium" ↔ (5 / 10 < a.anomalyScore ∧ a.anomalyScore ≤ 8 / 10)) ∧
    (a.severity = "low" ↔ a.anomalyScore ≤ 5 / 10) := by
  unfold detectDividendAnomalies at ha
  dsimp only at ha
  by_cases h5 : data.length < 5
  · rw [if_pos h5] at ha
    exact absurd ha (List.not_mem_nil a)
  · rw [if_neg h5] at ha
    simp only at ha
    rw [(List.perm_insertionSort _ _).mem_iff] at ha
    rw [List.mem_map] at ha
    obtain ⟨i, hi, rfl⟩ := ha
    exact buildAnomaly_invariants _ _ _ i


theorem sample_anomalyScoreAt : anomalyScoreAt sampleMethods 4 = 9 / 10 := by
  unfold anomalyScoreAt sampleMethods
  norm_num [scoreLookup, orElseJS, List.filter_cons, List.find?_cons]

theorem sample_buildAnomaly :
    buildAnomaly (sampleDividendData.map Observation.value)
      (sampleDividendData.map Observation.date) sampleMethods 4 = sampleAnomaly := by
  unfold buildAnomaly sampleDividendData sampleAnomaly
  simp only [List.map_cons, List.map_nil]
  rw [sample_anomalyScoreAt]
  norm_num [calculateMean, toFixed2, round_eq, Anomaly.mk.injEq, sampleMethods,
    List.filter_cons]

theorem sample_anomalies :
    (detectDividendAnomalies "majority" (fun _ => sampleMethods)
      (some sampleDividendData)).anomalies = [sampleAnomaly] := by
  have hcomb : combineAnomalyDetections "majority" sampleMethods = [4] := by decide
  unfold detectDividendAnomalies
  dsimp only
  rw [if_neg (by norm_num [sampleDividendData])]
  rw [hcomb]
  simp only [List.map_cons, List.map_nil, List.insertionSort, List.orderedInsert]
  rw [sample_buildAnomaly]

/-- Witness for C5 on the concrete run: the record for index 4 is in the
output and satisfies all the stated invariants. -/
theorem anomaly_record_invariants_witness :
    sampleAnomaly ∈ (detectDividendAnomalies "majority" (fun _ => sampleMethods)
      (some sampleDividendData)).anomalies ∧
    ((sampleAnomaly.type = "high_value" ↔
        calculateMean (sampleDividendData.map Observation.value) < sampleAnomaly.value) ∧
      (sampleAnomaly.severity = "high" ↔ 8 / 10 < sampleAnomaly.anomalyScore) ∧
      (sampleAnomaly.severity = "medium" ↔
        (5 / 10 < sampleAnomaly.anomalyScore ∧ sampleAnomaly.anomalyScore ≤ 8 / 10)) ∧
      (sampleAnomaly.severity = "low" ↔ sampleAnomaly.anomalyScore ≤ 5 / 10)) := by
  have hmem : sampleAnomaly ∈ (detectDividendAnomalies "majority" (fun _ => sampleMethods)
      (some sampleDividendData)).anomalies := by
    rw [sample_anomalies]
    exact List.mem_singleton.mpr rfl
  exact ⟨hmem, anomaly_record_invariants _ _ _ _ hmem⟩

/-- C9: for a missing series or one with fewer than 5 records,
`detectDividendAnomalies` returns the degraded result — empty anomalies,
stats count 0 and percentage 0, empty methods map — instead of throwing (the
`TypeError` raised on a missing series is absorbed by the surrounding
`catch`). -/
theorem insufficient_data_degraded (ensembleMethod : String)
    (computeMethods : List ℚ → List (String × MethodResult))
    (dividendData : Option (List Observation))
    (h : dividendData = none ∨ ∃ l, dividendData = some l ∧ l.length < 5) :
    (detectDividendAnomalies ensembleMethod computeMethods dividendData).anomalies = [] ∧
    (detectDividendAnomalies ensembleMethod computeMethods dividendData).stats =
      DetectionStats.mk 0 0 ∧
    (detectDividendAnomalies ensembleMethod computeMethods dividendData).methods = [] := by
  rcases h with rfl | ⟨l, rfl, hl⟩
  · exact ⟨rfl, rfl, rfl⟩
  · unfold detectDividendAnomalies
    dsimp only
    rw [if_pos hl]
    exact ⟨rfl, rfl, rfl⟩

/-- Witness for C9: a two-record series is below the five-record minimum and
yields the degraded result. -/
theorem insufficient_data_degraded_witness :
    ((some [Observation.mk "d0" 1 none none, Observation.mk "d1" 1 none none] :
        Option (List Observation)) = none ∨
      ∃ l, (some [Observation.mk "d0" 1 none none, Observation.mk "d1" 1 none none] :
        Option (List Observation)) = some l ∧ l.length < 5) ∧
    ((detectDividendAnomalies "majority" (fun _ => [])
        (some [Observation.mk "d0" 1 none none, Observation.mk "d1" 1 none none])).anomalies
        = [] ∧
      (detectDividendAnomalies "majority" (fun _ => [])
        (some [Observation.mk "d0" 1 none none, Observation.mk "d1" 1 none none])).stats =
        DetectionStats.mk 0 0 ∧
      (detectDividendAnomalies "majority" (fun _ => [])
        (some [Observation.mk "d0" 1 none none, Observation.mk "d1" 1 none none])).methods
        = []) :=
  ⟨Or.inr ⟨_, rfl, by norm_num⟩,
    insufficient_data_degraded "majority" (fun _ => []) _ (Or.inr ⟨_, rfl, by norm_num⟩)⟩
